import Mathlib

/-!
Shallow embedding of the character-display update engine of
src/server/drivers/linux_devlcd.c (and its private data from
src/server/drivers/linux_devlcd.h).

Modelling conventions:
  - machine integers become Nat/Int (C `int` fields that can be negative or
    are compared against negative sentinels become Int, sizes become Nat);
  - the device FILE* sink becomes a list of emitted output events;
  - the framebuffer / backing store byte arrays become row-major lists of
    rows (the allocation in linuxDevLcd_init sizes both exactly
    width*height, so each is `height` rows of `width` byte cells);
  - the 8-slot custom-character cache becomes a total function
    `Fin 8 → CGram` (the C array has fixed size NUM_CCs = 8, and each
    cache holds LCD_DEFAULT_CELLHEIGHT = 8 row bytes);
  - external collaborators (lib_vbar_static, lib_hbar_static,
    lib_adv_bignum) are taken as function parameters: per the module they
    only place characters via the driver's own primitives, i.e. they
    transform the framebuffer (and, for lib_adv_bignum, additionally the
    custom-character cache through set_char).
-/

/-- Pixel height of a cell: linuxDevLcd_init sets `p->cellheight = 8`
with the comment that this is a controller property, never changed. -/
def cellheight : Nat := 8

/-- Pixel width of a cell: linuxDevLcd_init sets `p->cellwidth = 5`. -/
def cellwidth : Nat := 5

/-- Number of custom characters, `#define NUM_CCs 8` in linux_devlcd.h. -/
def NUM_CCs : Nat := 8

/-- The rendering-mode enum `CGmode` used by the driver. -/
inductive CGmode where
  | standard
  | vbar
  | hbar
  | bignum
  | icons
deriving DecidableEq

/-- One entry of the custom character cache (struct cgram_cache): 8 bytes
of cache data plus a clean flag. -/
structure CGram where
  cache : Fin 8 → Nat
  clean : Bool

/-- One unit of output emitted to the /dev/lcd sink during a flush:
a cursor positioning escape sequence, a literal screen byte, or a
custom-character (re)definition sequence. -/
inductive OutEvent where
  | position : Nat → Nat → OutEvent
  | char : Nat → OutEvent
  | glyphDef : Nat → List Nat → OutEvent
deriving DecidableEq

/-- The driver's PrivateData (linux_devlcd.h), without the FILE* handle.
The C code's `static char doneFirstRefresh` inside linuxDevLcd_flush is
modelled as an explicit field, initialized false. -/
structure PrivateData where
  width : Nat
  height : Nat
  cc : Fin 8 → CGram
  ccmode : CGmode
  lastline : Bool
  framebuf : List (List Nat)
  backingstore : List (List Nat)
  nextrefresh : Int
  refreshdisplay : Int
  nextkeepalive : Int
  keepalivedisplay : Int
  backlight_state : Int
  doneFirstRefresh : Bool

/-- linuxDevLcd_init: calloc zeroes the private data (so every cache row
is 0, every clean flag is 0/false, lastline is 0/false), then the code
sets ccmode = standard, backlight_state = -1, nextrefresh = 0,
nextkeepalive = 0, reads the two intervals from config, memsets the
framebuffer to spaces (0x20) and callocs the backing store (zero bytes). -/
def linuxDevLcd_init (w h : Nat) (refreshd keepalived : Int) : PrivateData where
  width := w
  height := h
  cc := fun _ => ⟨fun _ => 0, false⟩
  ccmode := CGmode.standard
  lastline := false
  framebuf := List.replicate h (List.replicate w 0x20)
  backingstore := List.replicate h (List.replicate w 0)
  nextrefresh := 0
  refreshdisplay := refreshd
  nextkeepalive := 0
  keepalivedisplay := keepalived
  backlight_state := -1
  doneFirstRefresh := false

/-- linuxDevLcd_clear: memset the framebuffer to spaces and reset the
rendering mode to standard. -/
def linuxDevLcd_clear (s : PrivateData) : PrivateData :=
  { s with framebuf := List.replicate s.height (List.replicate s.width 0x20),
           ccmode := CGmode.standard }

/-- Write one byte into the row-major framebuffer at row y, column x. -/
def setCell (fb : List (List Nat)) (y x c : Nat) : List (List Nat) :=
  fb.set y ((fb.getD y []).set x c)

/-- linuxDevLcd_chr: convert 1-based coordinates to 0-based, replace an
escape byte (0x1B) with a space, and store the byte iff the coordinates
lie inside the display. -/
def linuxDevLcd_chr (x y : Int) (c : Nat) (s : PrivateData) : PrivateData :=
  let x1 := x - 1
  let y1 := y - 1
  let c1 := if c = 0x1B then 0x20 else c
  if 0 ≤ x1 ∧ 0 ≤ y1 ∧ x1 < (s.width : Int) ∧ y1 < (s.height : Int) then
    { s with framebuf := setCell s.framebuf y1.toNat x1.toNat c1 }
  else s

/-- The character loop of linuxDevLcd_string: iterate over the bytes while
the column is left of the right border, sanitize escapes, and write only
at non-negative columns. -/
def stringGo (w : Nat) (y : Nat) : Int → List Nat → List (List Nat) → List (List Nat)
  | _, [], fb => fb
  | x, c :: cs, fb =>
      if x < (w : Int) then
        let c1 := if c = 0x1B then 0x20 else c
        let fb1 := if 0 ≤ x then setCell fb y x.toNat c1 else fb
        stringGo w y (x + 1) cs fb1
      else fb

/-- linuxDevLcd_string: out-of-range row is a silent no-op, otherwise the
bytes are placed by the column loop. -/
def linuxDevLcd_string (x y : Int) (str : List Nat) (s : PrivateData) : PrivateData :=
  let x1 := x - 1
  let y1 := y - 1
  if y1 < 0 ∨ (s.height : Int) ≤ y1 then s
  else { s with framebuf := stringGo s.width y1.toNat x1 str s.framebuf }

/-- The per-row `letter` computation of linuxDevLcd_set_char:
`dat[row] & mask` (mask = (1 << cellwidth) - 1) when lastline is set or
the row is not the last one, 0 otherwise (the last line is zeroed to
avoid the underline effect). -/
def storedRows (lastline : Bool) (d : Nat → Nat) : Fin 8 → Nat :=
  fun row =>
    if lastline = true ∨ row.val < cellheight - 1
      then d row.val &&& ((1 <<< cellwidth) - 1) else 0

/-- linuxDevLcd_set_char: validate the slot (0 <= n < NUM_CCs, so the
`% 8` below is the identity on n.toNat) and a non-null data pointer;
compute the stored rows; mark the slot dirty only if some computed row
differs from the cached one; store the new rows regardless. -/
def linuxDevLcd_set_char (n : Int) (dat : Option (Nat → Nat)) (s : PrivateData) : PrivateData :=
  if 0 ≤ n ∧ n < (NUM_CCs : Int) then
    match dat with
    | none => s
    | some d =>
        let idx : Fin 8 := ⟨n.toNat % 8, Nat.mod_lt _ (by norm_num)⟩
        let newCache : Fin 8 → Nat := storedRows s.lastline d
        let changed : Bool := decide (∃ row : Fin 8, (s.cc idx).cache row ≠ newCache row)
        let entry : CGram := ⟨newCache, if changed then false else (s.cc idx).clean⟩
        { s with cc := Function.update s.cc idx entry }
  else s

/-- Forward scan of the flush diff: index of the first position where the
two rows differ (the C loop `for (x = 0; (sp <= ep) && (*sp == *sq); ...)`),
none if the rows agree everywhere. -/
def firstDiff : List Nat → List Nat → Option Nat
  | a :: as, b :: bs => if a = b then (firstDiff as bs).map (· + 1) else some 0
  | _, _ => none

/-- Backward scan of the flush diff: index of the last position where the
two rows differ (the C loop `for (; (ep >= sp) && (*ep == *eq); ep--, eq--)`),
none if the rows agree everywhere. -/
def lastDiff : List Nat → List Nat → Option Nat
  | a :: as, b :: bs =>
      match lastDiff as bs with
      | some j => some (j + 1)
      | none => if a = b then none else some 0
  | _, _ => none

/-- The backing-store row after a span [i, j] of the framebuffer row has
been streamed: inside the span each cell is copied byte-by-byte from the
framebuffer (`*sq = *sp`), outside it the old backing bytes remain. -/
def spanUpdate (fR bR : List Nat) (i j : Nat) : List Nat :=
  (List.range bR.length).map fun k => if i ≤ k ∧ k ≤ j then fR.getD k 0 else bR.getD k 0

/-- One row of the flush loop: on a forced refresh the span is the whole
row, otherwise the minimal span between the first and last difference; a
row with an empty span emits nothing; a non-empty span emits one
positioning command followed by the span's framebuffer bytes, and the
backing store is updated cell-by-cell as each byte is sent. -/
def rowEmit (forced : Bool) (y : Nat) (fR bR : List Nat) : List OutEvent × List Nat :=
  let span : Option (Nat × Nat) :=
    if forced then
      if fR.length = 0 then none else some (0, fR.length - 1)
    else
      match firstDiff fR bR, lastDiff fR bR with
      | some i, some j => some (i, j)
      | _, _ => none
  match span with
  | none => ([], bR)
  | some (i, j) =>
      (OutEvent.position i y :: ((fR.drop i).take (j - i + 1)).map OutEvent.char,
       spanUpdate fR bR i j)

/-- The per-row loop of linuxDevLcd_flush over all rows, top to bottom. -/
def screenStep (forced : Bool) : Nat → List (List Nat) → List (List Nat) →
    List OutEvent × List (List Nat)
  | y, fR :: fT, bR :: bT =>
      let pr := rowEmit forced y fR bR
      let rest := screenStep forced (y + 1) fT bT
      (pr.1 ++ rest.1, pr.2 :: rest.2)
  | _, _, bs => ([], bs)

/-- The custom-character part of linuxDevLcd_flush: for every slot with a
false clean flag, in ascending slot order, emit the redefinition sequence
(`ESC[LG<n>`, the cellheight cache rows, `;`). -/
def ccFlushEvents (cc : Fin 8 → CGram) : List OutEvent :=
  ((List.finRange 8).filter fun i => !(cc i).clean).map fun i =>
    OutEvent.glyphDef i.val ((List.finRange 8).map (cc i).cache)

/-- linuxDevLcd_flush: evaluate the two forced-refresh conditions (first
call ever; refresh interval configured and expired; keep-alive interval
configured and expired, each rescheduling its own deadline), run the
per-row diff/emission loop with `forced = refreshNow || keepaliveNow`,
then emit every dirty custom character and mark it clean.  Returns the
emitted output and the updated state. -/
def linuxDevLcd_flush (now : Int) (s : PrivateData) : List OutEvent × PrivateData :=
  let refreshTimerDue : Bool := decide (0 < s.refreshdisplay) && decide (s.nextrefresh < now)
  let refreshNow : Bool := !s.doneFirstRefresh || refreshTimerDue
  let keepaliveNow : Bool := decide (0 < s.keepalivedisplay) && decide (s.nextkeepalive < now)
  let nextrefresh1 : Int := if refreshTimerDue then now + s.refreshdisplay else s.nextrefresh
  let nextkeepalive1 : Int := if keepaliveNow then now + s.keepalivedisplay else s.nextkeepalive
  let scr := screenStep (refreshNow || keepaliveNow) 0 s.framebuf s.backingstore
  let gev := ccFlushEvents s.cc
  (scr.1 ++ gev,
   { s with backingstore := scr.2,
            cc := fun i => { s.cc i with clean := true },
            nextrefresh := nextrefresh1,
            nextkeepalive := nextkeepalive1,
            doneFirstRefresh := true })

/-- The cumulative vBar stack array at loop iteration i of
linuxDevLcd_vbar: after `vBar[p->cellheight - i] = 0xFF` has run for
1, 2, ..., i, exactly the entries at indices cellheight-i .. cellheight-1
hold 0xFF and the rest still hold the initial 0x00. -/
def vBarAt (i : Nat) : Nat → Nat :=
  fun r => if cellheight - i ≤ r ∧ r < cellheight then 0xFF else 0

/-- The glyph-definition loop of linuxDevLcd_vbar on first entry:
`for (i = 1; i < p->cellheight; i++) linuxDevLcd_set_char(drvthis, i, vBar)`. -/
def vbarDefineGlyphs (s : PrivateData) : PrivateData :=
  (List.range' 1 (cellheight - 1)).foldl
    (fun st i => linuxDevLcd_set_char (Int.ofNat i) (some (vBarAt i)) st) s

/-- Apply an external framebuffer-drawing collaborator to the state. -/
def applyDraw (draw : List (List Nat) → List (List Nat)) (s : PrivateData) : PrivateData :=
  { s with framebuf := draw s.framebuf }

/-- Apply the external big-number collaborator (which may touch the
custom-character cache and the framebuffer through the driver's own
primitives) to the state. -/
def applyBigDraw
    (bigDraw : Bool → (Fin 8 → CGram) × List (List Nat) → (Fin 8 → CGram) × List (List Nat))
    (flag : Bool) (s : PrivateData) : PrivateData :=
  { s with cc := (bigDraw flag (s.cc, s.framebuf)).1,
           framebuf := (bigDraw flag (s.cc, s.framebuf)).2 }

/-- linuxDevLcd_vbar.  The shared helper lib_vbar_static only places
characters through the driver's chr primitive, so it is modelled as a
framebuffer transformer `draw`.  If the current mode is a different
non-standard mode the call warns and returns without touching anything
(the returned Bool is the warning flag); on first entry from standard
mode the cellheight-1 bar glyphs are defined first. -/
def linuxDevLcd_vbar (draw : List (List Nat) → List (List Nat)) (s : PrivateData) :
    PrivateData × Bool :=
  if s.ccmode = CGmode.vbar then
    (applyDraw draw s, false)
  else if s.ccmode ≠ CGmode.standard then
    (s, true)
  else
    (applyDraw draw (vbarDefineGlyphs { s with ccmode := CGmode.vbar }), false)

/-- The row byte used for hBar glyph i in linuxDevLcd_hbar:
`0xFF & ~((1 << (p->cellwidth - i)) - 1)`, i.e. the leftmost i pixel
columns of the cell set. -/
def hBarRowVal (i : Nat) : Nat := 0xFF - ((1 <<< (cellwidth - i)) - 1)

/-- The glyph-definition loop of linuxDevLcd_hbar on first entry:
`for (i = 1; i <= p->cellwidth; i++)` with every row of the stack buffer
memset to the same byte. -/
def hbarDefineGlyphs (s : PrivateData) : PrivateData :=
  (List.range' 1 cellwidth).foldl
    (fun st i => linuxDevLcd_set_char (Int.ofNat i) (some fun _ => hBarRowVal i) st) s

/-- linuxDevLcd_hbar, with lib_hbar_static modelled as a framebuffer
transformer exactly as for vbar. -/
def linuxDevLcd_hbar (draw : List (List Nat) → List (List Nat)) (s : PrivateData) :
    PrivateData × Bool :=
  if s.ccmode = CGmode.hbar then
    (applyDraw draw s, false)
  else if s.ccmode ≠ CGmode.standard then
    (s, true)
  else
    (applyDraw draw (hbarDefineGlyphs { s with ccmode := CGmode.hbar }), false)

/-- linuxDevLcd_num.  The external collaborator lib_adv_bignum places
characters and (when the do_init flag is set) defines glyphs through the
driver's own primitives, so it is modelled as a transformer of the
custom-character cache and the framebuffer taking the do_init flag.
Out-of-range digits are silent no-ops; a different active non-standard
mode is rejected with only a warning. -/
def linuxDevLcd_num
    (bigDraw : Bool → (Fin 8 → CGram) × List (List Nat) → (Fin 8 → CGram) × List (List Nat))
    (digit : Int) (s : PrivateData) : PrivateData × Bool :=
  if digit < 0 ∨ 10 < digit then (s, false)
  else if s.ccmode = CGmode.bignum then
    (applyBigDraw bigDraw false s, false)
  else if s.ccmode ≠ CGmode.standard then
    (s, true)
  else
    (applyBigDraw bigDraw true { s with ccmode := CGmode.bignum }, false)

/-- The icon identifiers handled by linuxDevLcd_icon; `other` stands for
any icon code not in the driver's fixed set (the default case). -/
inductive IconId where
  | arrowLeft
  | arrowRight
  | blockFilled
  | heartFilled
  | heartOpen
  | arrowUp
  | arrowDown
  | checkboxOff
  | checkboxOn
  | checkboxGray
  | other
deriving DecidableEq

/-- Pixel rows of the static heart_open pattern in linuxDevLcd_icon. -/
def heart_open : Nat → Nat :=
  fun r => [0x1F, 0x15, 0x00, 0x00, 0x00, 0x11, 0x1B, 0x1F].getD r 0

/-- Pixel rows of the static heart_filled pattern in linuxDevLcd_icon. -/
def heart_filled : Nat → Nat :=
  fun r => [0x1F, 0x15, 0x0A, 0x0E, 0x0E, 0x15, 0x1B, 0x1F].getD r 0

/-- Pixel rows of the static arrow_up pattern in linuxDevLcd_icon. -/
def arrow_up : Nat → Nat :=
  fun r => [0x04, 0x0E, 0x15, 0x04, 0x04, 0x04, 0x04, 0x00].getD r 0

/-- Pixel rows of the static arrow_down pattern in linuxDevLcd_icon. -/
def arrow_down : Nat → Nat :=
  fun r => [0x04, 0x04, 0x04, 0x04, 0x15, 0x0E, 0x04, 0x00].getD r 0

/-- Pixel rows of the static checkbox_off pattern in linuxDevLcd_icon. -/
def checkbox_off : Nat → Nat :=
  fun r => [0x00, 0x00, 0x1F, 0x11, 0x11, 0x11, 0x1F, 0x00].getD r 0

/-- Pixel rows of the static checkbox_on pattern in linuxDevLcd_icon. -/
def checkbox_on : Nat → Nat :=
  fun r => [0x04, 0x04, 0x1D, 0x16, 0x15, 0x11, 0x1F, 0x00].getD r 0

/-- Pixel rows of the static checkbox_gray pattern in linuxDevLcd_icon. -/
def checkbox_gray : Nat → Nat :=
  fun r => [0x00, 0x00, 0x1F, 0x15, 0x1B, 0x15, 0x1F, 0x00].getD r 0

/-- Pixel rows of the static block_filled pattern in linuxDevLcd_icon. -/
def block_filled : Nat → Nat :=
  fun r => [0x1F, 0x1F, 0x1F, 0x1F, 0x1F, 0x1F, 0x1F, 0x1F].getD r 0

/-- The final part of linuxDevLcd_icon (after the arrow / block / heart
special cases): all remaining icons work only in the standard or icons
mode; entering icons mode from another non-standard mode warns and
returns -1; the default case returns -1 so the server core does the
icon.  Result is (state, return value, warning flag). -/
def iconModeTail (x y : Int) (ic : IconId) (s : PrivateData) : PrivateData × Int × Bool :=
  if s.ccmode ≠ CGmode.icons ∧ s.ccmode ≠ CGmode.standard then
    (s, -1, true)
  else
    let s1 := if s.ccmode = CGmode.icons then s else { s with ccmode := CGmode.icons }
    match ic with
    | IconId.arrowUp =>
        (linuxDevLcd_chr x y 1 (linuxDevLcd_set_char 1 (some arrow_up) s1), 0, false)
    | IconId.arrowDown =>
        (linuxDevLcd_chr x y 2 (linuxDevLcd_set_char 2 (some arrow_down) s1), 0, false)
    | IconId.checkboxOff =>
        (linuxDevLcd_chr x y 3 (linuxDevLcd_set_char 3 (some checkbox_off) s1), 0, false)
    | IconId.checkboxOn =>
        (linuxDevLcd_chr x y 4 (linuxDevLcd_set_char 4 (some checkbox_on) s1), 0, false)
    | IconId.checkboxGray =>
        (linuxDevLcd_chr x y 5 (linuxDevLcd_set_char 5 (some checkbox_gray) s1), 0, false)
    | _ => (s1, -1, false)

/-- linuxDevLcd_icon: the two CGROM arrow icons go straight to chr with
their fixed code points; the filled block works unless ccmode = bignum;
the two hearts work unless ccmode is bignum or vbar (glyph slot 7);
everything else is handled by the icons-mode tail. -/
def linuxDevLcd_icon (x y : Int) (ic : IconId) (s : PrivateData) : PrivateData × Int × Bool :=
  match ic with
  | IconId.arrowLeft => (linuxDevLcd_chr x y 0x1B s, 0, false)
  | IconId.arrowRight => (linuxDevLcd_chr x y 0x1A s, 0, false)
  | IconId.blockFilled =>
      if s.ccmode ≠ CGmode.bignum then
        (linuxDevLcd_chr x y 0 (linuxDevLcd_set_char 0 (some block_filled) s), 0, false)
      else (s, -1, false)
  | IconId.heartFilled =>
      if s.ccmode ≠ CGmode.bignum ∧ s.ccmode ≠ CGmode.vbar then
        (linuxDevLcd_chr x y 7 (linuxDevLcd_set_char 7 (some heart_filled) s), 0, false)
      else (s, -1, false)
  | IconId.heartOpen =>
      if s.ccmode ≠ CGmode.bignum ∧ s.ccmode ≠ CGmode.vbar then
        (linuxDevLcd_chr x y 7 (linuxDevLcd_set_char 7 (some heart_open) s), 0, false)
      else (s, -1, false)
  | _ => iconModeTail x y ic s

/-- linuxDevLcd_backlight, state part: the escape sequence is emitted
only when the requested state differs from the cached one, which is then
updated. -/
def linuxDevLcd_backlight (onoff : Int) (s : PrivateData) : PrivateData :=
  if s.backlight_state ≠ onoff then { s with backlight_state := onoff } else s

/-- Driver states reachable from linuxDevLcd_init by the driver's own
operations (with the external bar / bignum helpers ranging over arbitrary
transformers of the data they can touch). -/
inductive Reachable : PrivateData → Prop where
  | init (w h : Nat) (rd kd : Int) : Reachable (linuxDevLcd_init w h rd kd)
  | clear (s : PrivateData) : Reachable s → Reachable (linuxDevLcd_clear s)
  | chr (x y : Int) (c : Nat) (s : PrivateData) :
      Reachable s → Reachable (linuxDevLcd_chr x y c s)
  | str (x y : Int) (cs : List Nat) (s : PrivateData) :
      Reachable s → Reachable (linuxDevLcd_string x y cs s)
  | set_char (n : Int) (dat : Option (Nat → Nat)) (s : PrivateData) :
      Reachable s → Reachable (linuxDevLcd_set_char n dat s)
  | vbar (draw : List (List Nat) → List (List Nat)) (s : PrivateData) :
      Reachable s → Reachable (linuxDevLcd_vbar draw s).1
  | hbar (draw : List (List Nat) → List (List Nat)) (s : PrivateData) :
      Reachable s → Reachable (linuxDevLcd_hbar draw s).1
  | num (bigDraw : Bool → (Fin 8 → CGram) × List (List Nat) → (Fin 8 → CGram) × List (List Nat))
      (digit : Int) (s : PrivateData) :
      Reachable s → Reachable (linuxDevLcd_num bigDraw digit s).1
  | icon (x y : Int) (ic : IconId) (s : PrivateData) :
      Reachable s → Reachable (linuxDevLcd_icon x y ic s).1
  | flush (now : Int) (s : PrivateData) :
      Reachable s → Reachable (linuxDevLcd_flush now s).2
  | backlight (onoff : Int) (s : PrivateData) :
      Reachable s → Reachable (linuxDevLcd_backlight onoff s)

theorem firstDiff_self (as : List Nat) : firstDiff as as = none := by
  induction as with
  | nil => rfl
  | cons a t ih => simp [firstDiff, ih]

theorem lastDiff_self (as : List Nat) : lastDiff as as = none := by
  induction as with
  | nil => rfl
  | cons a t ih => simp [lastDiff, ih]

theorem firstDiff_eq_none (as : List Nat) : ∀ bs : List Nat,
    as.length = bs.length → firstDiff as bs = none → as = bs := by
  induction as with
  | nil =>
      intro bs hlen _
      cases bs with
      | nil => rfl
      | cons b t => simp at hlen
  | cons a t ih =>
      intro bs hlen hnone
      cases bs with
      | nil => simp at hlen
      | cons b u =>
          by_cases hab : a = b
          · rcases hg : firstDiff t u with _ | j
            · have := ih u (by simpa using hlen) hg
              rw [hab, this]
            · rw [firstDiff] at hnone
              simp [hab, hg] at hnone
          · rw [firstDiff] at hnone
            simp [hab] at hnone

theorem firstDiff_spec (as : List Nat) : ∀ (bs : List Nat) (i : Nat),
    firstDiff as bs = some i →
    i < as.length ∧ i < bs.length ∧ as.getD i 0 ≠ bs.getD i 0 ∧
      ∀ k, k < i → as.getD k 0 = bs.getD k 0 := by
  induction as with
  | nil => intro bs i h; simp [firstDiff] at h
  | cons a t ih =>
      intro bs i h
      cases bs with
      | nil => simp [firstDiff] at h
      | cons b u =>
          rw [firstDiff] at h
          by_cases hab : a = b
          · rcases hg : firstDiff t u with _ | j
            · simp [hab, hg] at h
            · rw [hg] at h
              simp [hab] at h
              obtain ⟨h1, h2, h3, h4⟩ := ih u j hg
              obtain rfl : i = j + 1 := by omega
              refine ⟨by simpa using h1, by simpa using h2, by simpa using h3, ?_⟩
              intro k hk
              cases k with
              | zero => simpa using hab
              | succ k => simpa using h4 k (by omega)
          · simp only [if_neg hab, Option.some_inj] at h
            subst h
            exact ⟨by simp, by simp, by simpa using hab, by omega⟩

theorem firstDiff_of_mismatch (as : List Nat) : ∀ (bs : List Nat) (i : Nat),
    i < as.length → i < bs.length → as.getD i 0 ≠ bs.getD i 0 →
    (∀ k, k < i → as.getD k 0 = bs.getD k 0) → firstDiff as bs = some i := by
  induction as with
  | nil => intro bs i h; simp at h
  | cons a t ih =>
      intro bs i h1 h2 h3 h4
      cases bs with
      | nil => simp at h2
      | cons b u =>
          cases i with
          | zero =>
              simp only [List.getD_cons_zero] at h3
              simp [firstDiff, h3]
          | succ i =>
              have hab : a = b := by simpa using h4 0 (by omega)
              have := ih u i (by simpa using h1) (by simpa using h2)
                (by simpa using h3) (fun k hk => by simpa using h4 (k + 1) (by omega))
              simp [firstDiff, hab, this]

theorem lastDiff_none_iff (as : List Nat) : ∀ bs : List Nat,
    lastDiff as bs = none ↔ firstDiff as bs = none := by
  induction as with
  | nil => intro bs; cases bs <;> simp [lastDiff, firstDiff]
  | cons a t ih =>
      intro bs
      cases bs with
      | nil => simp [lastDiff, firstDiff]
      | cons b u =>
          simp only [lastDiff, firstDiff]
          rcases h : lastDiff t u with _ | j
          · have hf : firstDiff t u = none := (ih u).mp h
            by_cases hab : a = b <;> simp [hab, hf]
          · have hf : firstDiff t u ≠ none := by
              intro hc
              rw [← ih u] at hc
              simp [hc] at h
            rcases hg : firstDiff t u with _ | i
            · exact absurd hg hf
            · by_cases hab : a = b <;> simp [hab]

theorem lastDiff_spec (as : List Nat) : ∀ (bs : List Nat) (j : Nat),
    as.length = bs.length → lastDiff as bs = some j →
    j < as.length ∧ as.getD j 0 ≠ bs.getD j 0 ∧
      ∀ k, j < k → k < as.length → as.getD k 0 = bs.getD k 0 := by
  induction as with
  | nil => intro bs j _ h; simp [lastDiff] at h
  | cons a t ih =>
      intro bs j hlen h
      cases bs with
      | nil => simp at hlen
      | cons b u =>
          have hlen2 : t.length = u.length := by simpa using hlen
          simp only [lastDiff] at h
          rcases hg : lastDiff t u with _ | j0
          · rw [hg] at h
            by_cases hab : a = b
            · simp [hab] at h
            · simp only [if_neg hab, Option.some_inj] at h
              subst h
              have hteq : t = u := by
                refine firstDiff_eq_none t u hlen2 ?_
                exact (lastDiff_none_iff t u).mp hg
              refine ⟨by simp, by simpa using hab, ?_⟩
              intro k h1 h2
              cases k with
              | zero => omega
              | succ k =>
                  rw [List.getD_cons_succ, List.getD_cons_succ, hteq]
          · rw [hg] at h
            simp only [Option.some_inj] at h
            subst h
            obtain ⟨h1, h2, h3⟩ := ih u j0 hlen2 hg
            refine ⟨by simpa using h1, by simpa using h2, ?_⟩
            intro k hk1 hk2
            cases k with
            | zero => omega
            | succ k => simpa using h3 k (by omega) (by simpa using hk2)

theorem ext_getD (as : List Nat) : ∀ bs : List Nat, as.length = bs.length →
    (∀ k, k < as.length → as.getD k 0 = bs.getD k 0) → as = bs := by
  induction as with
  | nil =>
      intro bs hlen _
      cases bs with
      | nil => rfl
      | cons b u => simp at hlen
  | cons a t ih =>
      intro bs hlen h
      cases bs with
      | nil => simp at hlen
      | cons b u =>
          have h0 : a = b := by simpa using h 0 (by simp)
          have := ih u (by simpa using hlen)
            (fun k hk => by simpa using h (k + 1) (by simpa using Nat.succ_lt_succ hk))
          rw [h0, this]

theorem lastDiff_of_mismatch (as : List Nat) : ∀ (bs : List Nat) (j : Nat),
    as.length = bs.length → j < as.length → as.getD j 0 ≠ bs.getD j 0 →
    (∀ k, j < k → k < as.length → as.getD k 0 = bs.getD k 0) →
    lastDiff as bs = some j := by
  induction as with
  | nil => intro bs j _ h; simp at h
  | cons a t ih =>
      intro bs j hlen h1 h2 h3
      cases bs with
      | nil => simp at hlen
      | cons b u =>
          have hlen2 : t.length = u.length := by simpa using hlen
          cases j with
          | zero =>
              have hteq : t = u := by
                refine ext_getD t u hlen2 ?_
                intro k hk
                simpa using h3 (k + 1) (by omega) (by simpa using Nat.succ_lt_succ hk)
              have : lastDiff t u = none := by rw [hteq]; exact lastDiff_self u
              simp only [List.getD_cons_zero] at h2
              simp [lastDiff, this, h2]
          | succ j =>
              have := ih u j hlen2 (by simpa using h1) (by simpa using h2)
                (fun k hk1 hk2 => by simpa using h3 (k + 1) (by omega) (by simpa using Nat.succ_lt_succ hk2))
              simp [lastDiff, this]

theorem map_range_getD (l : List Nat) (f : Nat → Nat)
    (h : ∀ k, k < l.length → f k = l.getD k 0) :
    (List.range l.length).map f = l := by
  apply List.ext_getElem
  · simp
  · intro k h1 h2
    simp only [List.getElem_map, List.getElem_range]
    rw [h k h2, List.getD_eq_getElem l 0 h2]

theorem spanUpdate_eq (fR bR : List Nat) (i j : Nat) (hlen : fR.length = bR.length)
    (hout : ∀ k, k < fR.length → ¬(i ≤ k ∧ k ≤ j) → fR.getD k 0 = bR.getD k 0) :
    spanUpdate fR bR i j = fR := by
  unfold spanUpdate
  rw [← hlen]
  apply map_range_getD
  intro k hk
  by_cases hin : i ≤ k ∧ k ≤ j
  · simp [hin]
  · simp only [if_neg hin]
    exact (hout k hk hin).symm

theorem rowEmit_self (y : Nat) (r : List Nat) : rowEmit false y r r = ([], r) := by
  simp [rowEmit, firstDiff_self, lastDiff_self]

theorem rowEmit_store (forced : Bool) (y : Nat) (fR bR : List Nat)
    (hlen : fR.length = bR.length) : (rowEmit forced y fR bR).2 = fR := by
  cases forced with
  | true =>
      by_cases h0 : fR.length = 0
      · have hf : fR = [] := List.length_eq_zero.mp h0
        have hb : bR = [] := List.length_eq_zero.mp (by omega)
        simp [rowEmit, hf, hb]
      · simp only [rowEmit, if_pos rfl, if_neg h0]
        exact spanUpdate_eq fR bR 0 (fR.length - 1) hlen
          (fun k hk hn => absurd ⟨Nat.zero_le k, by omega⟩ hn)
  | false =>
      rcases hf : firstDiff fR bR with _ | i
      · have heq := firstDiff_eq_none fR bR hlen hf
        subst heq
        rw [rowEmit_self]
      · rcases hl : lastDiff fR bR with _ | j
        · have hfn : firstDiff fR bR = none := (lastDiff_none_iff fR bR).mp hl
          rw [hf] at hfn
          cases hfn
        · obtain ⟨hi1, hi2, hi3, hi4⟩ := firstDiff_spec fR bR i hf
          obtain ⟨hj1, hj2, hj3⟩ := lastDiff_spec fR bR j hlen hl
          simp only [rowEmit, hf, hl, Bool.false_eq_true, if_false]
          exact spanUpdate_eq fR bR i j hlen
            (fun k hk hn => by
              rcases Nat.lt_or_ge k i with hki | hki
              · exact hi4 k hki
              · have hkj : j < k := by omega
                exact hj3 k hkj hk)

theorem screenStep_store (forced : Bool) (fb : List (List Nat)) :
    ∀ (y : Nat) (bs : List (List Nat)),
    List.Forall₂ (fun a b => a.length = b.length) fb bs →
    (screenStep forced y fb bs).2 = fb := by
  induction fb with
  | nil =>
      intro y bs h
      cases h
      rfl
  | cons fR fT ih =>
      intro y bs h
      cases h with
      | cons hlen htail =>
          simp [screenStep, rowEmit_store forced y _ _ hlen, ih _ _ htail]

theorem screenStep_self (fb : List (List Nat)) : ∀ y : Nat,
    screenStep false y fb fb = ([], fb) := by
  induction fb with
  | nil => intro y; rfl
  | cons fR fT ih => intro y; simp [screenStep, rowEmit_self, ih]

theorem ccFlushEvents_clean (cc : Fin 8 → CGram) (h : ∀ i, (cc i).clean = true) :
    ccFlushEvents cc = [] := by
  unfold ccFlushEvents
  have hf : ((List.finRange 8).filter fun i => !(cc i).clean) = [] := by
    apply List.filter_eq_nil_iff.mpr
    intro a _
    simp [h a]
  rw [hf]
  rfl

theorem flush_framebuf (now : Int) (s : PrivateData) :
    (linuxDevLcd_flush now s).2.framebuf = s.framebuf := rfl

theorem flush_cc (now : Int) (s : PrivateData) :
    (linuxDevLcd_flush now s).2.cc = fun i => { s.cc i with clean := true } := rfl

theorem flush_lastline (now : Int) (s : PrivateData) :
    (linuxDevLcd_flush now s).2.lastline = s.lastline := rfl

theorem flush_ccmode (now : Int) (s : PrivateData) :
    (linuxDevLcd_flush now s).2.ccmode = s.ccmode := rfl

theorem flush_refreshdisplay (now : Int) (s : PrivateData) :
    (linuxDevLcd_flush now s).2.refreshdisplay = s.refreshdisplay := rfl

theorem flush_keepalivedisplay (now : Int) (s : PrivateData) :
    (linuxDevLcd_flush now s).2.keepalivedisplay = s.keepalivedisplay := rfl

theorem flush_doneFirstRefresh (now : Int) (s : PrivateData) :
    (linuxDevLcd_flush now s).2.doneFirstRefresh = true := rfl

theorem flush_backingstore (now : Int) (s : PrivateData)
    (h : List.Forall₂ (fun a b => a.length = b.length) s.framebuf s.backingstore) :
    (linuxDevLcd_flush now s).2.backingstore = s.framebuf :=
  screenStep_store _ s.framebuf 0 s.backingstore h

theorem flush_out_notforced (now : Int) (s : PrivateData)
    (h1 : s.doneFirstRefresh = true)
    (h2 : ¬(0 < s.refreshdisplay ∧ s.nextrefresh < now))
    (h3 : ¬(0 < s.keepalivedisplay ∧ s.nextkeepalive < now)) :
    (linuxDevLcd_flush now s).1 =
      (screenStep false 0 s.framebuf s.backingstore).1 ++ ccFlushEvents s.cc := by
  have hr : (decide (0 < s.refreshdisplay) && decide (s.nextrefresh < now)) = false := by
    by_cases hA : 0 < s.refreshdisplay
    · have hB : ¬s.nextrefresh < now := fun hB => h2 ⟨hA, hB⟩
      simp [hB]
    · simp [hA]
  have hk : (decide (0 < s.keepalivedisplay) && decide (s.nextkeepalive < now)) = false := by
    by_cases hA : 0 < s.keepalivedisplay
    · have hB : ¬s.nextkeepalive < now := fun hB => h3 ⟨hA, hB⟩
      simp [hB]
    · simp [hA]
  simp [linuxDevLcd_flush, h1, hr, hk]

theorem set_char_ccmode (n : Int) (dat : Option (Nat → Nat)) (s : PrivateData) :
    (linuxDevLcd_set_char n dat s).ccmode = s.ccmode := by
  unfold linuxDevLcd_set_char
  split
  · cases dat <;> rfl
  · rfl

theorem set_char_lastline (n : Int) (dat : Option (Nat → Nat)) (s : PrivateData) :
    (linuxDevLcd_set_char n dat s).lastline = s.lastline := by
  unfold linuxDevLcd_set_char
  split
  · cases dat <;> rfl
  · rfl

theorem set_char_framebuf (n : Int) (dat : Option (Nat → Nat)) (s : PrivateData) :
    (linuxDevLcd_set_char n dat s).framebuf = s.framebuf := by
  unfold linuxDevLcd_set_char
  split
  · cases dat <;> rfl
  · rfl

theorem set_char_width (n : Int) (dat : Option (Nat → Nat)) (s : PrivateData) :
    (linuxDevLcd_set_char n dat s).width = s.width := by
  unfold linuxDevLcd_set_char
  split
  · cases dat <;> rfl
  · rfl

theorem set_char_height (n : Int) (dat : Option (Nat → Nat)) (s : PrivateData) :
    (linuxDevLcd_set_char n dat s).height = s.height := by
  unfold linuxDevLcd_set_char
  split
  · cases dat <;> rfl
  · rfl

theorem set_char_cc_self (i : Fin 8) (d : Nat → Nat) (s : PrivateData) :
    (linuxDevLcd_set_char i.val (some d) s).cc i =
      CGram.mk (storedRows s.lastline d)
        (if decide (∃ row : Fin 8, (s.cc i).cache row ≠ storedRows s.lastline d row)
          then false else (s.cc i).clean) := by
  have hn : 0 ≤ (i.val : Int) ∧ (i.val : Int) < (NUM_CCs : Int) := by
    refine ⟨Int.natCast_nonneg _, ?_⟩
    have := i.isLt
    simp only [NUM_CCs]
    exact_mod_cast this
  have hidx : (⟨((i.val : Int)).toNat % 8, Nat.mod_lt _ (by norm_num)⟩ : Fin 8) = i := by
    apply Fin.ext
    simp [Nat.mod_eq_of_lt i.isLt]
  unfold linuxDevLcd_set_char
  rw [if_pos hn]
  dsimp only
  rw [Function.update_apply, if_pos hidx.symm, hidx]

theorem set_char_cc_other (i j : Fin 8) (hij : j ≠ i) (d : Nat → Nat) (s : PrivateData) :
    (linuxDevLcd_set_char i.val (some d) s).cc j = s.cc j := by
  have hn : 0 ≤ (i.val : Int) ∧ (i.val : Int) < (NUM_CCs : Int) := by
    refine ⟨Int.natCast_nonneg _, ?_⟩
    have := i.isLt
    simp only [NUM_CCs]
    exact_mod_cast this
  have hidx : (⟨((i.val : Int)).toNat % 8, Nat.mod_lt _ (by norm_num)⟩ : Fin 8) = i := by
    apply Fin.ext
    simp [Nat.mod_eq_of_lt i.isLt]
  unfold linuxDevLcd_set_char
  rw [if_pos hn]
  dsimp only
  rw [Function.update_apply, if_neg (fun h => hij (h.trans hidx))]

theorem chr_ccmode (x y : Int) (c : Nat) (s : PrivateData) :
    (linuxDevLcd_chr x y c s).ccmode = s.ccmode := by
  unfold linuxDevLcd_chr
  dsimp only
  split_ifs <;> rfl

theorem chr_lastline (x y : Int) (c : Nat) (s : PrivateData) :
    (linuxDevLcd_chr x y c s).lastline = s.lastline := by
  unfold linuxDevLcd_chr
  dsimp only
  split_ifs <;> rfl

theorem chr_cc (x y : Int) (c : Nat) (s : PrivateData) :
    (linuxDevLcd_chr x y c s).cc = s.cc := by
  unfold linuxDevLcd_chr
  dsimp only
  split_ifs <;> rfl

theorem string_ccmode (x y : Int) (cs : List Nat) (s : PrivateData) :
    (linuxDevLcd_string x y cs s).ccmode = s.ccmode := by
  unfold linuxDevLcd_string
  dsimp only
  split_ifs <;> rfl

theorem string_lastline (x y : Int) (cs : List Nat) (s : PrivateData) :
    (linuxDevLcd_string x y cs s).lastline = s.lastline := by
  unfold linuxDevLcd_string
  dsimp only
  split_ifs <;> rfl

theorem clear_lastline (s : PrivateData) :
    (linuxDevLcd_clear s).lastline = s.lastline := rfl

theorem backlight_lastline (onoff : Int) (s : PrivateData) :
    (linuxDevLcd_backlight onoff s).lastline = s.lastline := by
  unfold linuxDevLcd_backlight
  split_ifs <;> rfl

theorem backlight_ccmode (onoff : Int) (s : PrivateData) :
    (linuxDevLcd_backlight onoff s).ccmode = s.ccmode := by
  unfold linuxDevLcd_backlight
  split_ifs <;> rfl

theorem vbarDefineGlyphs_lastline (s : PrivateData) :
    (vbarDefineGlyphs s).lastline = s.lastline := by
  unfold vbarDefineGlyphs
  generalize List.range' 1 (cellheight - 1) = l
  induction l generalizing s with
  | nil => rfl
  | cons a t ih => rw [List.foldl_cons, ih, set_char_lastline]

theorem vbarDefineGlyphs_ccmode (s : PrivateData) :
    (vbarDefineGlyphs s).ccmode = s.ccmode := by
  unfold vbarDefineGlyphs
  generalize List.range' 1 (cellheight - 1) = l
  induction l generalizing s with
  | nil => rfl
  | cons a t ih => rw [List.foldl_cons, ih, set_char_ccmode]

theorem hbarDefineGlyphs_lastline (s : PrivateData) :
    (hbarDefineGlyphs s).lastline = s.lastline := by
  unfold hbarDefineGlyphs
  generalize List.range' 1 cellwidth = l
  induction l generalizing s with
  | nil => rfl
  | cons a t ih => rw [List.foldl_cons, ih, set_char_lastline]

theorem hbarDefineGlyphs_ccmode (s : PrivateData) :
    (hbarDefineGlyphs s).ccmode = s.ccmode := by
  unfold hbarDefineGlyphs
  generalize List.range' 1 cellwidth = l
  induction l generalizing s with
  | nil => rfl
  | cons a t ih => rw [List.foldl_cons, ih, set_char_ccmode]

theorem applyDraw_lastline (draw : List (List Nat) → List (List Nat)) (s : PrivateData) :
    (applyDraw draw s).lastline = s.lastline := rfl

theorem applyDraw_ccmode (draw : List (List Nat) → List (List Nat)) (s : PrivateData) :
    (applyDraw draw s).ccmode = s.ccmode := rfl

theorem applyDraw_cc (draw : List (List Nat) → List (List Nat)) (s : PrivateData) :
    (applyDraw draw s).cc = s.cc := rfl

theorem applyBigDraw_lastline
    (bigDraw : Bool → (Fin 8 → CGram) × List (List Nat) → (Fin 8 → CGram) × List (List Nat))
    (flag : Bool) (s : PrivateData) :
    (applyBigDraw bigDraw flag s).lastline = s.lastline := rfl

theorem applyBigDraw_ccmode
    (bigDraw : Bool → (Fin 8 → CGram) × List (List Nat) → (Fin 8 → CGram) × List (List Nat))
    (flag : Bool) (s : PrivateData) :
    (applyBigDraw bigDraw flag s).ccmode = s.ccmode := rfl

theorem vbar_lastline (draw : List (List Nat) → List (List Nat)) (s : PrivateData) :
    (linuxDevLcd_vbar draw s).1.lastline = s.lastline := by
  unfold linuxDevLcd_vbar
  split
  · exact applyDraw_lastline draw s
  · split
    · rfl
    · show (applyDraw draw (vbarDefineGlyphs { s with ccmode := CGmode.vbar })).lastline =
        s.lastline
      rw [applyDraw_lastline, vbarDefineGlyphs_lastline]

theorem hbar_lastline (draw : List (List Nat) → List (List Nat)) (s : PrivateData) :
    (linuxDevLcd_hbar draw s).1.lastline = s.lastline := by
  unfold linuxDevLcd_hbar
  split
  · exact applyDraw_lastline draw s
  · split
    · rfl
    · show (applyDraw draw (hbarDefineGlyphs { s with ccmode := CGmode.hbar })).lastline =
        s.lastline
      rw [applyDraw_lastline, hbarDefineGlyphs_lastline]

theorem num_lastline
    (bigDraw : Bool → (Fin 8 → CGram) × List (List Nat) → (Fin 8 → CGram) × List (List Nat))
    (digit : Int) (s : PrivateData) :
    (linuxDevLcd_num bigDraw digit s).1.lastline = s.lastline := by
  unfold linuxDevLcd_num
  split_ifs
  · rfl
  · exact applyBigDraw_lastline bigDraw false s
  · rfl
  · show (applyBigDraw bigDraw true { s with ccmode := CGmode.bignum }).lastline = s.lastline
    rw [applyBigDraw_lastline]

theorem iconModeTail_lastline (x y : Int) (ic : IconId) (s : PrivateData) :
    (iconModeTail x y ic s).1.lastline = s.lastline := by
  unfold iconModeTail
  split
  · rfl
  · cases ic <;>
      dsimp only <;>
      (try simp only [chr_lastline, set_char_lastline]) <;>
      split_ifs <;> rfl

theorem icon_lastline (x y : Int) (ic : IconId) (s : PrivateData) :
    (linuxDevLcd_icon x y ic s).1.lastline = s.lastline := by
  cases ic <;>
    simp only [linuxDevLcd_icon, iconModeTail_lastline] <;>
    first
      | rw [chr_lastline]
      | (split_ifs <;> simp only [chr_lastline, set_char_lastline])

theorem vbar_ccmode_standard (draw : List (List Nat) → List (List Nat)) (s : PrivateData)
    (h : (linuxDevLcd_vbar draw s).1.ccmode = CGmode.standard) :
    s.ccmode = CGmode.standard := by
  unfold linuxDevLcd_vbar at h
  split at h
  · exact h
  · split at h
    · exact h
    · next h1 h2 => exact not_not.mp h2

theorem hbar_ccmode_standard (draw : List (List Nat) → List (List Nat)) (s : PrivateData)
    (h : (linuxDevLcd_hbar draw s).1.ccmode = CGmode.standard) :
    s.ccmode = CGmode.standard := by
  unfold linuxDevLcd_hbar at h
  split at h
  · exact h
  · split at h
    · exact h
    · next h1 h2 => exact not_not.mp h2

theorem num_ccmode_standard
    (bigDraw : Bool → (Fin 8 → CGram) × List (List Nat) → (Fin 8 → CGram) × List (List Nat))
    (digit : Int) (s : PrivateData)
    (h : (linuxDevLcd_num bigDraw digit s).1.ccmode = CGmode.standard) :
    s.ccmode = CGmode.standard := by
  unfold linuxDevLcd_num at h
  split_ifs at h with h1 h2 h3
  · exact h
  · rw [show ((applyBigDraw bigDraw false s, false) :
        PrivateData × Bool).1.ccmode = s.ccmode from applyBigDraw_ccmode bigDraw false s] at h
    exact h
  · exact h
  · exact not_not.mp h3

theorem iconModeTail_ccmode_standard (x y : Int) (ic : IconId) (s : PrivateData)
    (h : (iconModeTail x y ic s).1.ccmode = CGmode.standard) :
    s.ccmode = CGmode.standard := by
  unfold iconModeTail at h
  split at h
  · exact h
  · next hg =>
      push_neg at hg
      by_cases hic : s.ccmode = CGmode.icons
      · exfalso
        dsimp only at h
        rw [if_pos hic] at h
        cases ic <;>
          simp only [chr_ccmode, set_char_ccmode] at h <;>
          rw [hic] at h <;> cases h
      · exact hg hic

theorem icon_ccmode_standard (x y : Int) (ic : IconId) (s : PrivateData)
    (h : (linuxDevLcd_icon x y ic s).1.ccmode = CGmode.standard) :
    s.ccmode = CGmode.standard := by
  cases ic
  case arrowLeft =>
      simp only [linuxDevLcd_icon, chr_ccmode] at h
      exact h
  case arrowRight =>
      simp only [linuxDevLcd_icon, chr_ccmode] at h
      exact h
  case blockFilled =>
      simp only [linuxDevLcd_icon] at h
      split at h
      · rw [chr_ccmode, set_char_ccmode] at h
        exact h
      · exact h
  case heartFilled =>
      simp only [linuxDevLcd_icon] at h
      split at h
      · rw [chr_ccmode, set_char_ccmode] at h
        exact h
      · exact h
  case heartOpen =>
      simp only [linuxDevLcd_icon] at h
      split at h
      · rw [chr_ccmode, set_char_ccmode] at h
        exact h
      · exact h
  case arrowUp => exact iconModeTail_ccmode_standard x y _ s h
  case arrowDown => exact iconModeTail_ccmode_standard x y _ s h
  case checkboxOff => exact iconModeTail_ccmode_standard x y _ s h
  case checkboxOn => exact iconModeTail_ccmode_standard x y _ s h
  case checkboxGray => exact iconModeTail_ccmode_standard x y _ s h
  case other => exact iconModeTail_ccmode_standard x y _ s h

/-- C1: with no forced refresh or keep-alive due, flush's screen output is
the concatenation of the per-row emissions; a row equal to its backing
row emits nothing; a differing row emits exactly one positioned write at
the first differing column followed by the framebuffer bytes of the
inclusive span up to the last differing column; in particular framebuffer
"ABCDE" against backing store "AXCDE" emits exactly column 1, length 1. -/
theorem C1_row_diff_span (s : PrivateData) (now : Int)
    (h1 : s.doneFirstRefresh = true)
    (h2 : ¬(0 < s.refreshdisplay ∧ s.nextrefresh < now))
    (h3 : ¬(0 < s.keepalivedisplay ∧ s.nextkeepalive < now)) :
    ((linuxDevLcd_flush now s).1 =
        (screenStep false 0 s.framebuf s.backingstore).1 ++ ccFlushEvents s.cc) ∧
    (∀ (y : Nat) (r : List Nat), (rowEmit false y r r).1 = []) ∧
    (∀ (y : Nat) (fR bR : List Nat) (i j : Nat), fR.length = bR.length →
        (i < fR.length ∧ fR.getD i 0 ≠ bR.getD i 0 ∧
          ∀ k, k < i → fR.getD k 0 = bR.getD k 0) →
        (j < fR.length ∧ fR.getD j 0 ≠ bR.getD j 0 ∧
          ∀ k, j < k → k < fR.length → fR.getD k 0 = bR.getD k 0) →
        (rowEmit false y fR bR).1 =
          OutEvent.position i y :: ((fR.drop i).take (j - i + 1)).map OutEvent.char) ∧
    ((rowEmit false 0 [65, 66, 67, 68, 69] [65, 88, 67, 68, 69]).1 =
        [OutEvent.position 1 0, OutEvent.char 66]) := by
  refine ⟨flush_out_notforced now s h1 h2 h3, ?_, ?_, by decide⟩
  · intro y r
    rw [rowEmit_self]
  · intro y fR bR i j hlen hfirst hlast
    have hfd : firstDiff fR bR = some i :=
      firstDiff_of_mismatch fR bR i hfirst.1 (by omega) hfirst.2.1 hfirst.2.2
    have hld : lastDiff fR bR = some j :=
      lastDiff_of_mismatch fR bR j hlen hlast.1 hlast.2.1 hlast.2.2
    simp [rowEmit, hfd, hld]

/-- C1 witness: the concrete "ABCDE" vs "AXCDE" instance, obtained from
the claim theorem at a concrete state with both timers disabled. -/
theorem C1_row_diff_span_witness :
    (rowEmit false 0 [65, 66, 67, 68, 69] [65, 88, 67, 68, 69]).1 =
      [OutEvent.position 1 0, OutEvent.char 66] :=
  (C1_row_diff_span { linuxDevLcd_init 5 1 0 0 with doneFirstRefresh := true } 0
    rfl (by decide) (by decide)).2.2.2

/-- C2: after every flush, the backing store equals the framebuffer at
every cell (in-span cells are copied byte-by-byte while sent, cells
outside any span were already equal). -/
theorem C2_backingstore_eq_framebuf (now : Int) (s : PrivateData)
    (h : List.Forall₂ (fun a b => a.length = b.length) s.framebuf s.backingstore) :
    (linuxDevLcd_flush now s).2.backingstore = (linuxDevLcd_flush now s).2.framebuf := by
  rw [flush_framebuf, flush_backingstore now s h]

/-- C2 witness: the invariant at a concrete freshly initialized 2x1
driver. -/
theorem C2_backingstore_eq_framebuf_witness :
    (linuxDevLcd_flush 0 (linuxDevLcd_init 2 1 0 0)).2.backingstore =
      (linuxDevLcd_flush 0 (linuxDevLcd_init 2 1 0 0)).2.framebuf :=
  C2_backingstore_eq_framebuf 0 (linuxDevLcd_init 2 1 0 0)
    (List.Forall₂.cons (by decide) List.Forall₂.nil)

/-- C3: with the refresh and keep-alive intervals both 0 (disabled), the
second of two consecutive flush calls with no intervening drawing emits
no bytes at all — neither screen content nor glyph definitions. -/
theorem C3_second_flush_empty (s : PrivateData) (now1 now2 : Int)
    (hr : s.refreshdisplay = 0) (hk : s.keepalivedisplay = 0)
    (h : List.Forall₂ (fun a b => a.length = b.length) s.framebuf s.backingstore) :
    (linuxDevLcd_flush now2 (linuxDevLcd_flush now1 s).2).1 = [] := by
  have h1 : (linuxDevLcd_flush now1 s).2.doneFirstRefresh = true :=
    flush_doneFirstRefresh now1 s
  have h2 : ¬(0 < (linuxDevLcd_flush now1 s).2.refreshdisplay ∧
      (linuxDevLcd_flush now1 s).2.nextrefresh < now2) := by
    intro hc
    rw [flush_refreshdisplay, hr] at hc
    exact absurd hc.1 (lt_irrefl 0)
  have h3 : ¬(0 < (linuxDevLcd_flush now1 s).2.keepalivedisplay ∧
      (linuxDevLcd_flush now1 s).2.nextkeepalive < now2) := by
    intro hc
    rw [flush_keepalivedisplay, hk] at hc
    exact absurd hc.1 (lt_irrefl 0)
  rw [flush_out_notforced now2 _ h1 h2 h3]
  have hbs : (linuxDevLcd_flush now1 s).2.backingstore =
      (linuxDevLcd_flush now1 s).2.framebuf := by
    rw [flush_framebuf, flush_backingstore now1 s h]
  rw [hbs, flush_framebuf, screenStep_self]
  have hcc : ∀ i, ((linuxDevLcd_flush now1 s).2.cc i).clean = true := by
    intro i
    rw [flush_cc]
  rw [ccFlushEvents_clean _ hcc]
  rfl

/-- C3 witness: the second flush of a concrete freshly initialized 2x1
driver emits nothing. -/
theorem C3_second_flush_empty_witness :
    (linuxDevLcd_flush 1 (linuxDevLcd_flush 0 (linuxDevLcd_init 2 1 0 0)).2).1 = [] :=
  C3_second_flush_empty (linuxDevLcd_init 2 1 0 0) 0 1 rfl rfl
    (List.Forall₂.cons (by decide) List.Forall₂.nil)

/-- C6: the code contradicts the claim (and its own header comment
"Refresh upper left char every keepalivedisplay seconds"): when only the
keep-alive deadline fires, the flush loop treats keepaliveNow exactly
like a full refresh and retransmits every row in full.  At a 2x1 display
whose framebuffer already equals the backing store, a keep-alive flush
emits the whole row — including the cell at column 1 that equals the
backing store — rather than touching only the top-left cell. -/
theorem C6_keepalive_transmits_full_screen :
    (linuxDevLcd_flush 5
      { width := 2, height := 1,
        cc := fun _ => ⟨fun _ => 0, true⟩,
        ccmode := CGmode.standard, lastline := false,
        framebuf := [[65, 66]], backingstore := [[65, 66]],
        nextrefresh := 0, refreshdisplay := 0,
        nextkeepalive := 0, keepalivedisplay := 1,
        backlight_state := -1, doneFirstRefresh := true }).1 =
      [OutEvent.position 0 0, OutEvent.char 65, OutEvent.char 66] := by decide

/-- C8: the code contradicts the claim (and its own comment "Icons from
CGROM will always work"): linuxDevLcd_icon passes the CGROM code point
0x1B for ICON_ARROW_LEFT to linuxDevLcd_chr, and chr sanitizes the
escape byte 0x1B to a space (0x20), so the framebuffer cell receives
0x20, not 0x1B.  ICON_ARROW_RIGHT (0x1A) is stored as claimed, and both
return 0 without consuming a glyph slot. -/
theorem C8_arrow_left_escape_sanitized :
    ((linuxDevLcd_icon 1 1 IconId.arrowLeft (linuxDevLcd_init 2 1 0 0)).2.1 = 0) ∧
    (((linuxDevLcd_icon 1 1 IconId.arrowLeft
        (linuxDevLcd_init 2 1 0 0)).1.framebuf.getD 0 []).getD 0 0 = 0x20) ∧
    ((0x20 : Nat) ≠ 0x1B) ∧
    ((linuxDevLcd_icon 1 1 IconId.arrowRight (linuxDevLcd_init 2 1 0 0)).2.1 = 0) ∧
    (((linuxDevLcd_icon 1 1 IconId.arrowRight
        (linuxDevLcd_init 2 1 0 0)).1.framebuf.getD 0 []).getD 0 0 = 0x1A) ∧
    ((linuxDevLcd_icon 1 1 IconId.arrowLeft (linuxDevLcd_init 2 1 0 0)).1.cc =
        (linuxDevLcd_init 2 1 0 0).cc) := by
  refine ⟨by decide, by decide, by decide, by decide, by decide, ?_⟩
  show (linuxDevLcd_chr 1 1 0x1B (linuxDevLcd_init 2 1 0 0)).cc = (linuxDevLcd_init 2 1 0 0).cc
  rw [chr_cc]

/-- C4: at most one non-standard rendering mode is active at a time.
Invoking vbar while the mode is hbar, bignum or icons (and symmetrically
hbar, or num with an in-range digit, while a different non-standard mode
is active) returns the state completely unchanged with only the warning
flag set; and the mode returns to standard only via an explicit clear:
no drawing operation ever maps a non-standard mode back to standard,
while clear always does. -/
theorem C4_mode_exclusion :
    (∀ (draw : List (List Nat) → List (List Nat)) (s : PrivateData),
        s.ccmode = CGmode.hbar ∨ s.ccmode = CGmode.bignum ∨ s.ccmode = CGmode.icons →
        linuxDevLcd_vbar draw s = (s, true)) ∧
    (∀ (draw : List (List Nat) → List (List Nat)) (s : PrivateData),
        s.ccmode = CGmode.vbar ∨ s.ccmode = CGmode.bignum ∨ s.ccmode = CGmode.icons →
        linuxDevLcd_hbar draw s = (s, true)) ∧
    (∀ (bigDraw : Bool → (Fin 8 → CGram) × List (List Nat) →
          (Fin 8 → CGram) × List (List Nat)) (digit : Int) (s : PrivateData),
        0 ≤ digit → digit ≤ 10 →
        s.ccmode = CGmode.vbar ∨ s.ccmode = CGmode.hbar ∨ s.ccmode = CGmode.icons →
        linuxDevLcd_num bigDraw digit s = (s, true)) ∧
    (∀ (draw : List (List Nat) → List (List Nat)) (s : PrivateData),
        (linuxDevLcd_vbar draw s).1.ccmode = CGmode.standard →
        s.ccmode = CGmode.standard) ∧
    (∀ (draw : List (List Nat) → List (List Nat)) (s : PrivateData),
        (linuxDevLcd_hbar draw s).1.ccmode = CGmode.standard →
        s.ccmode = CGmode.standard) ∧
    (∀ (bigDraw : Bool → (Fin 8 → CGram) × List (List Nat) →
          (Fin 8 → CGram) × List (List Nat)) (digit : Int) (s : PrivateData),
        (linuxDevLcd_num bigDraw digit s).1.ccmode = CGmode.standard →
        s.ccmode = CGmode.standard) ∧
    (∀ (x y : Int) (ic : IconId) (s : PrivateData),
        (linuxDevLcd_icon x y ic s).1.ccmode = CGmode.standard →
        s.ccmode = CGmode.standard) ∧
    (∀ (n : Int) (dat : Option (Nat → Nat)) (s : PrivateData),
        (linuxDevLcd_set_char n dat s).ccmode = s.ccmode) ∧
    (∀ (x y : Int) (c : Nat) (s : PrivateData),
        (linuxDevLcd_chr x y c s).ccmode = s.ccmode) ∧
    (∀ (x y : Int) (cs : List Nat) (s : PrivateData),
        (linuxDevLcd_string x y cs s).ccmode = s.ccmode) ∧
    (∀ (now : Int) (s : PrivateData),
        (linuxDevLcd_flush now s).2.ccmode = s.ccmode) ∧
    (∀ s : PrivateData, (linuxDevLcd_clear s).ccmode = CGmode.standard) := by
  refine ⟨?_, ?_, ?_, vbar_ccmode_standard, hbar_ccmode_standard, num_ccmode_standard,
    icon_ccmode_standard, set_char_ccmode, chr_ccmode, string_ccmode, flush_ccmode,
    fun s => rfl⟩
  · intro draw s hm
    rcases hm with h | h | h <;> simp [linuxDevLcd_vbar, h]
  · intro draw s hm
    rcases hm with h | h | h <;> simp [linuxDevLcd_hbar, h]
  · intro bigDraw digit s hd0 hd10 hm
    have hrange : ¬(digit < 0 ∨ 10 < digit) := by omega
    rcases hm with h | h | h <;> simp [linuxDevLcd_num, hrange, h]

/-- C4 witness: vbar invoked while in hbar mode on a concrete driver is
a pure no-op with the warning flag as only result. -/
theorem C4_mode_exclusion_witness :
    linuxDevLcd_vbar id { linuxDevLcd_init 2 1 0 0 with ccmode := CGmode.hbar } =
      ({ linuxDevLcd_init 2 1 0 0 with ccmode := CGmode.hbar }, true) :=
  C4_mode_exclusion.1 id { linuxDevLcd_init 2 1 0 0 with ccmode := CGmode.hbar }
    (Or.inl rfl)

/-- C5 counterexample: set_char does not store the last row masked to
cellwidth bits — with lastline always disabled it stores 0 there.  Slot
0 defined with every data row 0x1F (whose masked value is 0x1F = 31)
ends with cached row 7 equal to 0, not 31. -/
theorem C5_last_row_not_masked :
    (((linuxDevLcd_set_char 0 (some fun _ => 31) (linuxDevLcd_init 2 1 0 0)).cc 0).cache 7
        = 0) ∧
    ((31 : Nat) &&& ((1 <<< cellwidth) - 1) = 31) ∧ ((0 : Nat) ≠ 31) := by decide

/-- C5 amended: for a valid slot and non-null data, set_char stores each
row except the last masked to cellwidth bits and stores the last row as
zero (the lastline setting is never enabled); the clean flag survives
exactly when the stored rows coincide with the previously cached ones;
and re-defining the slot with the same data after a flush leaves the
slot clean and the next flush retransmits no glyph at all. -/
theorem C5_set_char_amended (s : PrivateData) (hll : s.lastline = false)
    (i : Fin 8) (d : Nat → Nat) (now : Int) :
    (∀ r : Fin 8, ((linuxDevLcd_set_char i.val (some d) s).cc i).cache r =
        if r.val < cellheight - 1 then d r.val &&& ((1 <<< cellwidth) - 1) else 0) ∧
    (((linuxDevLcd_set_char i.val (some d) s).cc i).clean = true ↔
        ((s.cc i).clean = true ∧
          ∀ r : Fin 8, (s.cc i).cache r = storedRows s.lastline d r)) ∧
    ((((linuxDevLcd_set_char i.val (some d)
          (linuxDevLcd_flush now (linuxDevLcd_set_char i.val (some d) s)).2).cc i).clean
        = true) ∧
      ccFlushEvents ((linuxDevLcd_set_char i.val (some d)
          (linuxDevLcd_flush now (linuxDevLcd_set_char i.val (some d) s)).2).cc) = []) := by
  have hcache2 :
      ((linuxDevLcd_flush now (linuxDevLcd_set_char i.val (some d) s)).2.cc i).cache =
        storedRows s.lastline d := by
    rw [flush_cc]
    show ((linuxDevLcd_set_char i.val (some d) s).cc i).cache = storedRows s.lastline d
    rw [set_char_cc_self]
  have hlast2 :
      (linuxDevLcd_flush now (linuxDevLcd_set_char i.val (some d) s)).2.lastline =
        s.lastline := by
    rw [flush_lastline, set_char_lastline]
  have hclean3 :
      (((linuxDevLcd_set_char i.val (some d)
          (linuxDevLcd_flush now (linuxDevLcd_set_char i.val (some d) s)).2).cc i).clean
        = true) := by
    rw [set_char_cc_self]
    show (if decide (∃ row : Fin 8,
        ((linuxDevLcd_flush now (linuxDevLcd_set_char i.val (some d) s)).2.cc i).cache row ≠
          storedRows
            (linuxDevLcd_flush now (linuxDevLcd_set_char i.val (some d) s)).2.lastline
            d row)
      then false
      else ((linuxDevLcd_flush now (linuxDevLcd_set_char i.val (some d) s)).2.cc i).clean)
        = true
    rw [hcache2, hlast2, if_neg (by simp)]
    rw [flush_cc]
  refine ⟨?_, ?_, hclean3, ?_⟩
  · intro r
    rw [set_char_cc_self]
    show storedRows s.lastline d r = _
    rw [storedRows, hll]
    simp
  · rw [set_char_cc_self]
    show (if decide (∃ row : Fin 8, (s.cc i).cache row ≠ storedRows s.lastline d row)
        then false else (s.cc i).clean) = true ↔ _
    by_cases hall : ∀ r : Fin 8, (s.cc i).cache r = storedRows s.lastline d r
    · rw [if_neg (by simpa using hall)]
      simp [hall]
    · rw [if_pos (by simpa using hall)]
      simp [hall]
  · apply ccFlushEvents_clean
    intro j
    by_cases hj : j = i
    · subst hj
      exact hclean3
    · rw [set_char_cc_other i j hj, flush_cc]

/-- C5 witness: slot 2 on a fresh driver, defined, flushed, re-defined
with identical pixel data: clean stays true and the next flush carries
no glyph redefinition. -/
theorem C5_set_char_amended_witness :
    ((((linuxDevLcd_set_char (2 : Fin 8).val (some fun _ => 21)
          (linuxDevLcd_flush 0 (linuxDevLcd_set_char (2 : Fin 8).val (some fun _ => 21)
            (linuxDevLcd_init 2 1 0 0))).2).cc 2).clean = true) ∧
      ccFlushEvents ((linuxDevLcd_set_char (2 : Fin 8).val (some fun _ => 21)
          (linuxDevLcd_flush 0 (linuxDevLcd_set_char (2 : Fin 8).val (some fun _ => 21)
            (linuxDevLcd_init 2 1 0 0))).2).cc) = []) :=
  (C5_set_char_amended (linuxDevLcd_init 2 1 0 0) rfl 2 (fun _ => 21) 0).2.2

theorem foldl_set_char_cc_notmem (f : Nat → Nat → Nat) (l : List Nat) :
    ∀ (s : PrivateData) (i : Fin 8), (∀ a ∈ l, a < 8) → i.val ∉ l →
    ((l.foldl (fun st a => linuxDevLcd_set_char (Int.ofNat a) (some (f a)) st) s).cc i) =
      s.cc i := by
  induction l with
  | nil => intro s i _ _; rfl
  | cons a t ih =>
      intro s i hb hm
      rw [List.foldl_cons]
      have ha8 : a < 8 := hb a (by simp)
      have hne : i ≠ (⟨a, ha8⟩ : Fin 8) := by
        intro hc
        exact hm (by simp [hc])
      rw [ih _ i (fun b hbm => hb b (by simp [hbm])) (fun hmem => hm (by simp [hmem]))]
      have hcast : (Int.ofNat a) = (((⟨a, ha8⟩ : Fin 8)).val : Int) := rfl
      rw [hcast, set_char_cc_other ⟨a, ha8⟩ i hne]

theorem foldl_set_char_cc_mem (f : Nat → Nat → Nat) (l : List Nat) :
    ∀ (s : PrivateData) (i : Fin 8), (∀ a ∈ l, a < 8) → l.Nodup → i.val ∈ l →
    ((l.foldl (fun st a => linuxDevLcd_set_char (Int.ofNat a) (some (f a)) st) s).cc i).cache =
      storedRows s.lastline (f i.val) := by
  induction l with
  | nil => intro s i _ _ hm; simp at hm
  | cons a t ih =>
      intro s i hb hnd hm
      rw [List.foldl_cons]
      by_cases hia : i.val = a
      · have hnotm : i.val ∉ t := by
          rw [hia]
          exact (List.nodup_cons.mp hnd).1
        rw [foldl_set_char_cc_notmem f t _ i (fun b hbm => hb b (by simp [hbm])) hnotm]
        have ha8 : a < 8 := hb a (by simp)
        have hieq : i = (⟨a, ha8⟩ : Fin 8) := Fin.ext hia
        rw [hieq]
        have hcast : (Int.ofNat a) = (((⟨a, ha8⟩ : Fin 8)).val : Int) := rfl
        rw [hcast, set_char_cc_self]
      · have hm2 : i.val ∈ t := by
          rcases List.mem_cons.mp hm with h | h
          · exact absurd h hia
          · exact h
        rw [ih _ i (fun b hbm => hb b (by simp [hbm])) (List.nodup_cons.mp hnd).2 hm2,
            set_char_lastline]

theorem vbarDefineGlyphs_cc (s : PrivateData) (i : Fin 8) (hi : 1 ≤ i.val) :
    ((vbarDefineGlyphs s).cc i).cache = storedRows s.lastline (vBarAt i.val) := by
  unfold vbarDefineGlyphs
  apply foldl_set_char_cc_mem
  · decide
  · decide
  · have h8 := i.isLt
    rw [List.mem_range'_1]
    constructor
    · exact hi
    · show i.val < 1 + (cellheight - 1)
      simp only [cellheight]
      omega

/-- C7 counterexample: the claim says glyph 1's rows
[cellheight-1 .. cellheight-1] (its bottom row) are all-ones within the
cellwidth bits (= 31), but on first entry into vertical-bar mode from
standard mode glyph 1's cached row 7 is 0 — set_char always zeroes the
last row because lastline is never enabled. -/
theorem C7_glyph_last_row_zero :
    ((linuxDevLcd_vbar id (linuxDevLcd_init 2 1 0 0)).1.cc 1).cache 7 ≠
      (1 <<< cellwidth) - 1 := by decide

/-- C7 amended: on first entry into vertical-bar mode from standard mode,
glyph i (1 <= i <= cellheight-1) has rows [cellheight-i .. cellheight-2]
all-ones within the cellwidth bits and every other row zero — the final
row cellheight-1 is always zeroed because the lastline setting is never
enabled. -/
theorem C7_vbar_glyphs (draw : List (List Nat) → List (List Nat)) (s : PrivateData)
    (hmode : s.ccmode = CGmode.standard) (hll : s.lastline = false)
    (i r : Fin 8) (hi : 1 ≤ i.val) :
    ((linuxDevLcd_vbar draw s).1.cc i).cache r =
      if cellheight - i.val ≤ r.val ∧ r.val ≤ cellheight - 2
        then (1 <<< cellwidth) - 1 else 0 := by
  have hv : ¬s.ccmode = CGmode.vbar := by rw [hmode]; simp
  have hs : ¬s.ccmode ≠ CGmode.standard := by rw [hmode]; simp
  unfold linuxDevLcd_vbar
  rw [if_neg hv, if_neg hs]
  show ((applyDraw draw (vbarDefineGlyphs { s with ccmode := CGmode.vbar })).cc i).cache r = _
  rw [applyDraw_cc, vbarDefineGlyphs_cc _ i hi]
  show storedRows s.lastline (vBarAt i.val) r = _
  rw [hll]
  simp only [storedRows, vBarAt, cellheight, cellwidth]
  have hr8 := r.isLt
  have hi8 := i.isLt
  by_cases h7 : r.val < 8 - 1
  · rw [if_pos (Or.inr h7)]
    by_cases hin : 8 - i.val ≤ r.val
    · rw [if_pos ⟨hin, by omega⟩, if_pos ⟨hin, by omega⟩]
      decide
    · rw [if_neg (by omega), if_neg (by omega)]
      decide
  · rw [if_neg (by simp; omega), if_neg (by omega)]

/-- C7 witness: glyph 3 of a concrete first vbar entry has rows 5 and 6
solid and rows 0-4 and 7 blank. -/
theorem C7_vbar_glyphs_witness :
    ((linuxDevLcd_vbar id (linuxDevLcd_init 2 1 0 0)).1.cc 3).cache 5 =
      (1 <<< cellwidth) - 1 ∧
    ((linuxDevLcd_vbar id (linuxDevLcd_init 2 1 0 0)).1.cc 3).cache 7 = 0 := by
  constructor
  · have := C7_vbar_glyphs id (linuxDevLcd_init 2 1 0 0) rfl rfl 3 5 (by decide)
    rw [this]
    decide
  · have := C7_vbar_glyphs id (linuxDevLcd_init 2 1 0 0) rfl rfl 3 7 (by decide)
    rw [this]
    decide

theorem setCell_getD (fb : List (List Nat)) (y x c : Nat)
    (hy : y < fb.length) (hx : x < (fb.getD y []).length) :
    ((setCell fb y x c).getD y []).getD x 0 = c := by
  unfold setCell
  have h1 : y < (fb.set y ((fb.getD y []).set x c)).length := by simpa using hy
  rw [List.getD_eq_getElem _ _ h1, List.getElem_set_self]
  have h2 : x < ((fb.getD y []).set x c).length := by simpa using hx
  rw [List.getD_eq_getElem _ _ h2, List.getElem_set_self]

/-- C9: requesting the filled heart while in vertical-bar or big-number
mode returns -1 and leaves the whole state (framebuffer, glyph cache,
mode) untouched; in standard mode it returns 0, programs glyph slot 7
with the heart pattern as processed by set_char (rows masked to
cellwidth bits, last row zeroed), and writes character index 7 into the
framebuffer cell at (x, y). -/
theorem C9_heart_filled_modes (x y : Int) (s : PrivateData) :
    ((s.ccmode = CGmode.vbar ∨ s.ccmode = CGmode.bignum) →
      linuxDevLcd_icon x y IconId.heartFilled s = (s, -1, false)) ∧
    (s.ccmode = CGmode.standard → s.lastline = false →
      1 ≤ x → x ≤ (s.width : Int) → 1 ≤ y → y ≤ (s.height : Int) →
      s.framebuf.length = s.height → (∀ row ∈ s.framebuf, row.length = s.width) →
      (((linuxDevLcd_icon x y IconId.heartFilled s).2.1 = 0) ∧
       (∀ r : Fin 8, ((linuxDevLcd_icon x y IconId.heartFilled s).1.cc 7).cache r =
          [31, 21, 10, 14, 14, 21, 27, 0].getD r.val 0) ∧
       (((linuxDevLcd_icon x y IconId.heartFilled s).1.framebuf.getD (y - 1).toNat []).getD
          (x - 1).toNat 0 = 7) ∧
       ((linuxDevLcd_icon x y IconId.heartFilled s).1.ccmode = CGmode.standard))) := by
  constructor
  · intro hm
    rcases hm with h | h <;> simp [linuxDevLcd_icon, h]
  · intro hmode hll hx1 hxw hy1 hyh hlen hrow
    have hcond : s.ccmode ≠ CGmode.bignum ∧ s.ccmode ≠ CGmode.vbar := by
      rw [hmode]
      exact ⟨by simp, by simp⟩
    have hicon : linuxDevLcd_icon x y IconId.heartFilled s =
        (linuxDevLcd_chr x y 7 (linuxDevLcd_set_char 7 (some heart_filled) s), 0, false) := by
      simp [linuxDevLcd_icon, hcond]
    rw [hicon]
    refine ⟨rfl, ?_, ?_, ?_⟩
    · intro r
      show ((linuxDevLcd_chr x y 7 (linuxDevLcd_set_char 7 (some heart_filled) s)).cc 7).cache r
          = _
      rw [chr_cc]
      have hcast : (7 : Int) = (((7 : Fin 8)).val : Int) := rfl
      rw [hcast, set_char_cc_self]
      show storedRows s.lastline heart_filled r = _
      rw [hll]
      revert r
      decide
    · show ((linuxDevLcd_chr x y 7
          (linuxDevLcd_set_char 7 (some heart_filled) s)).framebuf.getD (y - 1).toNat []).getD
            (x - 1).toNat 0 = 7
      unfold linuxDevLcd_chr
      dsimp only
      have hcnd : 0 ≤ x - 1 ∧ 0 ≤ y - 1 ∧
          x - 1 < ((linuxDevLcd_set_char 7 (some heart_filled) s).width : Int) ∧
          y - 1 < ((linuxDevLcd_set_char 7 (some heart_filled) s).height : Int) := by
        rw [set_char_width, set_char_height]
        omega
      rw [if_pos hcnd]
      dsimp only
      rw [set_char_framebuf, if_neg (by norm_num : ¬(7 : Nat) = 27)]
      apply setCell_getD
      · rw [hlen]
        omega
      · have hyb : (y - 1).toNat < s.framebuf.length := by
          rw [hlen]
          omega
        have hmem : s.framebuf.getD (y - 1).toNat [] ∈ s.framebuf := by
          rw [List.getD_eq_getElem _ _ hyb]
          exact List.getElem_mem _
        rw [hrow _ hmem]
        omega
    · show (linuxDevLcd_chr x y 7 (linuxDevLcd_set_char 7 (some heart_filled) s)).ccmode = _
      rw [chr_ccmode, set_char_ccmode, hmode]

/-- C9 witness: the filled heart is rejected in vertical-bar mode and, on
a fresh 2x1 driver in standard mode at (1,1), returns 0 and stores
character index 7 at the top-left cell. -/
theorem C9_heart_filled_modes_witness :
    (linuxDevLcd_icon 1 1 IconId.heartFilled
        { linuxDevLcd_init 2 1 0 0 with ccmode := CGmode.vbar } =
      ({ linuxDevLcd_init 2 1 0 0 with ccmode := CGmode.vbar }, -1, false)) ∧
    ((linuxDevLcd_icon 1 1 IconId.heartFilled (linuxDevLcd_init 2 1 0 0)).2.1 = 0) ∧
    (((linuxDevLcd_icon 1 1 IconId.heartFilled
        (linuxDevLcd_init 2 1 0 0)).1.framebuf.getD 0 []).getD 0 0 = 7) := by
  have hstd := (C9_heart_filled_modes 1 1 (linuxDevLcd_init 2 1 0 0)).2 rfl rfl
    (by decide) (by decide) (by decide) (by decide) (by decide) (by decide)
  refine ⟨(C9_heart_filled_modes 1 1 _).1 (Or.inl rfl), hstd.1, ?_⟩
  have := hstd.2.2.1
  norm_num at this
  exact this

theorem reachable_lastline (s : PrivateData) (h : Reachable s) : s.lastline = false := by
  induction h with
  | init w h rd kd => rfl
  | clear s hs ih => rw [clear_lastline]; exact ih
  | chr x y c s hs ih => rw [chr_lastline]; exact ih
  | str x y cs s hs ih => rw [string_lastline]; exact ih
  | set_char n dat s hs ih => rw [set_char_lastline]; exact ih
  | vbar draw s hs ih => rw [vbar_lastline]; exact ih
  | hbar draw s hs ih => rw [hbar_lastline]; exact ih
  | num bigDraw digit s hs ih => rw [num_lastline]; exact ih
  | icon x y ic s hs ih => rw [icon_lastline]; exact ih
  | flush now s hs ih => rw [flush_lastline]; exact ih
  | backlight onoff s hs ih => rw [backlight_lastline]; exact ih

/-- C10: the "use full pixel-addressable last line" setting is never
enabled — every state reachable from init by the driver's operations has
lastline = false, and consequently set_char on any valid slot with
non-null data stores 0 in the cache row at index cellheight-1, whatever
the supplied row data. -/
theorem C10_lastline_disabled (s : PrivateData) (h : Reachable s) :
    s.lastline = false ∧
    ∀ (i : Fin 8) (d : Nat → Nat) (r : Fin 8), r.val = cellheight - 1 →
      ((linuxDevLcd_set_char i.val (some d) s).cc i).cache r = 0 := by
  have hll := reachable_lastline s h
  refine ⟨hll, ?_⟩
  intro i d r hr
  rw [set_char_cc_self]
  show storedRows s.lastline d r = 0
  rw [hll, storedRows]
  simp only [cellheight] at hr
  rw [if_neg (by simp [hr, cellheight])]

/-- C10 witness: on the freshly initialized driver, defining slot 0 with
all rows 0xFF still leaves cached row 7 equal to 0. -/
theorem C10_lastline_disabled_witness :
    (linuxDevLcd_init 2 1 0 0).lastline = false ∧
    ((linuxDevLcd_set_char (0 : Fin 8).val (some fun _ => 255)
        (linuxDevLcd_init 2 1 0 0)).cc 0).cache 7 = 0 := by
  have h := C10_lastline_disabled (linuxDevLcd_init 2 1 0 0) (Reachable.init 2 1 0 0)
  exact ⟨h.1, h.2 0 (fun _ => 255) 7 (by decide)⟩
